import Mathlib

/-
  Verification development for the Microsoft.UI.UIAutomation remote-operation
  instruction-graph builder (AutomationRemoteOperation).

  The repository ships the builder's header (AutomationRemoteOperation.h) with
  its documentation and member initializers; the method bodies live outside the
  provided sources.  The definitions below therefore embed the builder as the
  header and the specification describe it: an operand-id allocator starting at
  1, a tree of scopes with one current scope, construction-time error checks,
  a response binder, a linearizer and an execution client.
-/

namespace UIA

/-- Operand identifiers: the C++ `bytecode::OperandId` wraps an `int`. -/
abbrev OperandId := Int

/-- Modelled from the spec: scope kinds of the operation graph
(Root, IfTrue, IfFalse, WhileBody, WhileConditionUpdate, TryBody, ExceptBody). -/
inductive ScopeKind where
  | root
  | ifTrue
  | ifFalse
  | whileBody
  | whileUpdate
  | tryBody
  | exceptBody
deriving DecidableEq, Repr

/-- Modelled from the spec: an instruction is an opcode, ordered input
operand ids, and an optional destination operand id. -/
structure Instruction where
  opcode : Nat
  inputs : List OperandId
  dest : Option OperandId
deriving DecidableEq, Repr

/-- Modelled from the spec: one entry of a scope's ordered contents — a plain
instruction, a nested if/while/try block with its child scopes, a loop-control
entry, or a return-status entry. -/
inductive Entry where
  | instr (i : Instruction)
  | ifE (cond : OperandId) (tArm : List Entry) (fArm : Option (List Entry))
  | whileE (cond : OperandId) (body : List Entry) (upd : Option (List Entry))
  | tryE (body : List Entry) (exc : Option (List Entry))
  | breakE
  | continueE
  | retE (status : Int)

/-- Modelled from the spec: a scope of the operation graph: its kind, its
ordered entries, and the operand ids defined inside it (for the dominance
check behind `DanglingOperand`). -/
structure Frame where
  kind : ScopeKind
  entries : List Entry
  defined : List OperandId

/-- Modelled from the spec: the builder state of one AutomationRemoteOperation
instance: the `m_nextId` allocator, the current scope (`m_currentScope`) with
the stack of its open ancestors (root at the bottom), the active provider
connection, the response binder's requested operands, the import table, and
the platform's opcode-support table (connection, opcode). -/
structure St where
  nextId : Int
  cur : Frame
  parents : List Frame
  activeConn : Option Nat
  responses : List OperandId
  imports : List (OperandId × Nat)
  supports : Nat → Nat → Bool

/-- A freshly constructed AutomationRemoteOperation: `m_nextId` is initialized
to 1 (AutomationRemoteOperation.h line 120) and the root graph is empty. -/
def initSt (f : Nat → Nat → Bool) : St :=
  { nextId := 1
    cur := ⟨ScopeKind.root, [], []⟩
    parents := []
    activeConn := none
    responses := []
    imports := []
    supports := f }

/-- GetNextId: returns a brand new id and increments the allocator.
Modelled from the spec: the header documents that the id is incremented every
time a new remote OperandId is requested; the body is not in the sources. -/
def getNextId (s : St) : OperandId × St :=
  (s.nextId, { s with nextId := s.nextId + 1 })

/-- Record an operand id as defined in the current scope. -/
def defineId (i : OperandId) (s : St) : St :=
  { s with cur := { s.cur with defined := s.cur.defined ++ [i] } }

/-- Append an entry to the current scope. -/
def appendEntry (e : Entry) (s : St) : St :=
  { s with cur := { s.cur with entries := s.cur.entries ++ [e] } }

/-- Enter a fresh child scope of the given kind and make it current. -/
def pushScope (k : ScopeKind) (s : St) : St :=
  { s with cur := ⟨k, [], []⟩, parents := s.cur :: s.parents }

/-- Leave the current scope, restoring its parent as current; returns the
frame that was just closed. -/
def popScope (s : St) : Frame × St :=
  match s.parents with
  | p :: ps => (s.cur, { s with cur := p, parents := ps })
  | [] => (s.cur, s)

/-- An operand id is visible at the insertion point when it was defined in the
current scope or in one of its open ancestors (the dominance rule). -/
def visibleB (s : St) (i : OperandId) : Bool :=
  s.cur.defined.contains i || s.parents.any fun f => f.defined.contains i

/-- Whether some open scope (the current one or an ancestor) has the given
kind; `BreakLoop`/`ContinueLoop` need an enclosing WhileBody,
`GetCurrentFailureCode` an enclosing ExceptBody. -/
def inScopeB (k : ScopeKind) (s : St) : Bool :=
  s.cur.kind == k || s.parents.any fun f => f.kind == k

/-- RequestResponse: registers the operand for marshaling back and returns a
fresh response token (the index into the request list). Modelled from the
spec: repeated calls are allowed and return distinct tokens. -/
def requestResponse (oid : OperandId) (s : St) : Nat × St :=
  (s.responses.length, { s with responses := s.responses ++ [oid] })

/-- InsertInstruction: appends an instruction to the current scope, allocating
and defining a destination operand when the instruction produces one. -/
def insertInstr (op : Nat) (inputs : List OperandId) (hasDest : Bool) (s : St) : St :=
  if hasDest then
    let r := getNextId s
    appendEntry (Entry.instr ⟨op, inputs, some r.1⟩) (defineId r.1 r.2)
  else
    appendEntry (Entry.instr ⟨op, inputs, none⟩) s

/-- IsOpcodeSupported: queried against the active connection; the header
documents that it throws (E_FAIL) when no connection is currently active,
rather than returning false. -/
def isOpcodeSupportedQ (s : St) (op : Nat) : Except Bool Bool :=
  match s.activeConn with
  | none => Except.error true
  | some c => Except.ok (s.supports c op)

/-- Modelled from the spec: the construction-time error taxonomy of §7, plus
`userError` for an exception thrown by a caller-supplied scope handler. -/
inductive BuildError where
  | unsupportedOpcode
  | unsupportedCapability
  | crossConnectionImport
  | danglingOperand
  | invalidControlFlow
  | noActiveConnection
  | userError
deriving DecidableEq, Repr

/-- IsOpcodeSupported as an Except over the error taxonomy. -/
def isOpcodeSupported (s : St) (op : Nat) : Except BuildError Bool :=
  match s.activeConn with
  | none => Except.error BuildError.noActiveConnection
  | some c => Except.ok (s.supports c op)

/-- Modelled from the spec: one builder call issued by the client or by a
caller-supplied scope handler.  Handlers are sequences of such calls; a
handler that throws is modelled by `throwUser`. -/
inductive Act where
  | newVal : Act
  | importObj : Nat → Act
  | insertI : Nat → List OperandId → Bool → Act
  | insertOp : Nat → List OperandId → Bool → Act
  | reqResponse : OperandId → Act
  | ifB : OperandId → List Act → Act
  | ifBE : OperandId → List Act → List Act → Act
  | whileB : OperandId → List Act → Act
  | whileBU : OperandId → List Act → List Act → Act
  | tryB : List Act → Act
  | tryBE : List Act → List Act → Act
  | breakL : Act
  | continueL : Act
  | getFailCode : Act
  | retStatus : Int → Act
  | throwUser : Act

/-- ImportElement and friends: tags the new operand with its originating
connection; the first import establishes the active connection, an import
from a different connection fails with `CrossConnectionImport` at that call. -/
def importObj (c : Nat) (s : St) : Option BuildError × St :=
  match s.activeConn with
  | none =>
      let r := getNextId { s with activeConn := some c }
      (none, defineId r.1 { r.2 with imports := r.2.imports ++ [(r.1, c)] })
  | some c0 =>
      if c0 = c then
        let r := getNextId s
        (none, defineId r.1 { r.2 with imports := r.2.imports ++ [(r.1, c)] })
      else
        (some BuildError.crossConnectionImport, s)

mutual

/-- Modelled from the spec: run one builder call on the builder state.
Returns the propagating error, if any, together with the state after the
call; scope restoration happens on every exit path (the scoped guard around
`m_currentScope`). -/
def runAct : Act → St → Option BuildError × St
  | Act.newVal, s => (none, insertInstr 0 [] true s)
  | Act.importObj c, s => importObj c s
  | Act.insertI op ins d, s =>
      if ins.all (visibleB s) then (none, insertInstr op ins d s)
      else (some BuildError.danglingOperand, s)
  | Act.insertOp op ins d, s =>
      match s.activeConn with
      | none => (some BuildError.noActiveConnection, s)
      | some c =>
          if s.supports c op then
            if ins.all (visibleB s) then (none, insertInstr op ins d s)
            else (some BuildError.danglingOperand, s)
          else (some BuildError.unsupportedOpcode, s)
  | Act.reqResponse oid, s => (none, (requestResponse oid s).2)
  | Act.ifB c tH, s =>
      if visibleB s c then
        let r := runActs tH (pushScope ScopeKind.ifTrue s)
        let p := popScope r.2
        (r.1, appendEntry (Entry.ifE c p.1.entries none) p.2)
      else (some BuildError.danglingOperand, s)
  | Act.ifBE c tH fH, s =>
      if visibleB s c then
        let r := runActs tH (pushScope ScopeKind.ifTrue s)
        let p := popScope r.2
        match r.1 with
        | some e => (some e, appendEntry (Entry.ifE c p.1.entries none) p.2)
        | none =>
            let r2 := runActs fH (pushScope ScopeKind.ifFalse p.2)
            let p2 := popScope r2.2
            (r2.1, appendEntry (Entry.ifE c p.1.entries (some p2.1.entries)) p2.2)
      else (some BuildError.danglingOperand, s)
  | Act.whileB c body, s =>
      if visibleB s c then
        let r := runActs body (pushScope ScopeKind.whileBody s)
        let p := popScope r.2
        (r.1, appendEntry (Entry.whileE c p.1.entries none) p.2)
      else (some BuildError.danglingOperand, s)
  | Act.whileBU c body upd, s =>
      if visibleB s c then
        let r := runActs body (pushScope ScopeKind.whileBody s)
        let p := popScope r.2
        match r.1 with
        | some e => (some e, appendEntry (Entry.whileE c p.1.entries none) p.2)
        | none =>
            let r2 := runActs upd (pushScope ScopeKind.whileUpdate p.2)
            let p2 := popScope r2.2
            (r2.1, appendEntry (Entry.whileE c p.1.entries (some p2.1.entries)) p2.2)
      else (some BuildError.danglingOperand, s)
  | Act.tryB body, s =>
      let r := runActs body (pushScope ScopeKind.tryBody s)
      let p := popScope r.2
      (r.1, appendEntry (Entry.tryE p.1.entries none) p.2)
  | Act.tryBE body exc, s =>
      let r := runActs body (pushScope ScopeKind.tryBody s)
      let p := popScope r.2
      match r.1 with
      | some e => (some e, appendEntry (Entry.tryE p.1.entries none) p.2)
      | none =>
          let r2 := runActs exc (pushScope ScopeKind.exceptBody p.2)
          let p2 := popScope r2.2
          (r2.1, appendEntry (Entry.tryE p.1.entries (some p2.1.entries)) p2.2)
  | Act.breakL, s =>
      if inScopeB ScopeKind.whileBody s then (none, appendEntry Entry.breakE s)
      else (some BuildError.invalidControlFlow, s)
  | Act.continueL, s =>
      if inScopeB ScopeKind.whileBody s then (none, appendEntry Entry.continueE s)
      else (some BuildError.invalidControlFlow, s)
  | Act.getFailCode, s =>
      if inScopeB ScopeKind.exceptBody s then
        let r := getNextId s
        (none, defineId r.1 r.2)
      else (some BuildError.invalidControlFlow, s)
  | Act.retStatus v, s => (none, appendEntry (Entry.retE v) s)
  | Act.throwUser, s => (some BuildError.userError, s)

/-- Run a sequence of builder calls; an error stops the sequence (the
exception propagates out of the handler). -/
def runActs : List Act → St → Option BuildError × St
  | [], s => (none, s)
  | a :: rest, s =>
      let r := runAct a s
      match r.1 with
      | some e => (some e, r.2)
      | none => runActs rest r.2

end

/-- Modelled from the spec: the linear instruction stream produced by the
linearizer — plain instructions plus explicit control-transfer instructions
(conditional branch, unconditional jump, loop-back jump, exception-dispatch
marker, return-status). -/
inductive LinInstr where
  | op (i : Instruction)
  | branchIfFalse (cond : OperandId) (offset : Nat)
  | jump (offset : Nat)
  | loopBack (offset : Nat)
  | breakJump
  | continueJump
  | tryMarker (handlerOffset : Nat)
  | ret (status : Int)
deriving DecidableEq, Repr

mutual

/-- Modelled from the spec: flatten a scope's entry list into one linear
instruction stream, emitting explicit branches and jumps for the nested
scopes. -/
def lin : List Entry → List LinInstr
  | [] => []
  | e :: rest => linE e ++ lin rest

/-- Flatten a single entry. -/
def linE : Entry → List LinInstr
  | Entry.instr i => [LinInstr.op i]
  | Entry.ifE c t none =>
      let lt := lin t
      LinInstr.branchIfFalse c lt.length :: lt
  | Entry.ifE c t (some f) =>
      let lt := lin t
      let lf := lin f
      LinInstr.branchIfFalse c (lt.length + 1) :: lt ++ LinInstr.jump lf.length :: lf
  | Entry.whileE c b none =>
      let lb := lin b
      LinInstr.branchIfFalse c (lb.length + 1) :: lb ++ [LinInstr.loopBack (lb.length + 2)]
  | Entry.whileE c b (some u) =>
      let lb := lin b
      let lu := lin u
      LinInstr.branchIfFalse c (lb.length + lu.length + 1) ::
        lb ++ lu ++ [LinInstr.loopBack (lb.length + lu.length + 2)]
  | Entry.tryE b none => LinInstr.tryMarker 0 :: lin b
  | Entry.tryE b (some x) =>
      let lb := lin b
      let lx := lin x
      LinInstr.tryMarker (lb.length + 1) :: lb ++ LinInstr.jump lx.length :: lx
  | Entry.breakE => [LinInstr.breakJump]
  | Entry.continueE => [LinInstr.continueJump]
  | Entry.retE v => [LinInstr.ret v]

end

/-- The linear program `Execute` hands to the execution channel: the
linearization of the builder's current (root) scope. -/
def linearizedProgram (s : St) : List LinInstr :=
  lin s.cur.entries

/-- Modelled from the spec: the external execution channel — takes the linear
program and the response-request list, returns a status and a value table. -/
def Channel : Type :=
  List LinInstr → List OperandId → Int × (OperandId → Option Int)

/-- Modelled from the spec: the result of one `Execute` call — the overall
status and the decoded values, indexed by the response tokens issued during
construction. -/
structure ResultSet where
  status : Int
  values : List (Option Int)

/-- Execute: linearizes the finished graph once, hands the program and the
response requests to the channel, and wraps the reply into a ResultSet.  A
non-success status is returned as the ResultSet's status with all per-operand
values absent; the graph state is never mutated. -/
def execute (ch : Channel) (s : St) : ResultSet × St :=
  let r := ch (linearizedProgram s) s.responses
  if r.1 = 0 then ({ status := 0, values := s.responses.map r.2 }, s)
  else ({ status := r.1, values := [] }, s)

/-- Redeem a response token against a ResultSet: the decoded value the
operand held, or none when absent. -/
def decode (rs : ResultSet) (t : Nat) : Option Int :=
  rs.values.getD t none

/-- The ids issued by `k` successive GetNextId calls starting from `s`. -/
def issued : Nat → St → List OperandId
  | 0, _ => []
  | k + 1, s => (getNextId s).1 :: issued k (getNextId s).2

/-- The non-block builder calls: the calls that raise construction-time
errors directly (rather than propagating one out of a nested handler). -/
def Act.primitive : Act → Bool
  | Act.newVal => true
  | Act.importObj _ => true
  | Act.insertI _ _ _ => true
  | Act.insertOp _ _ _ => true
  | Act.reqResponse _ => true
  | Act.breakL => true
  | Act.continueL => true
  | Act.getFailCode => true
  | Act.retStatus _ => true
  | _ => false

/-- An opcode-support table granting nothing, for concrete examples. -/
def noOps : Nat → Nat → Bool := fun _ _ => false

/-- A channel that always succeeds with an empty value table. -/
def okChannel : Channel := fun _ _ => (0, fun _ => none)

/-- A channel that always fails with status 3. -/
def failChannel : Channel := fun _ _ => (3, fun _ => none)

/-- A concrete builder state: one constructed operand (id 1) in the root
scope, no connection. -/
def exampleSt : St :=
  { nextId := 2
    cur := ⟨ScopeKind.root, [Entry.instr ⟨0, [], some 1⟩], [1]⟩
    parents := []
    activeConn := none
    responses := []
    imports := []
    supports := noOps }

/-- A concrete builder state with an active connection 0 that supports no
opcodes, and one imported operand (id 1). -/
def exampleConnSt : St :=
  { nextId := 2
    cur := ⟨ScopeKind.root, [], [1]⟩
    parents := []
    activeConn := some 0
    responses := []
    imports := [(1, 0)]
    supports := noOps }

/-- State evolution of one builder call: the open ancestor scopes are left
untouched, the current scope keeps its identity (kind) and only gains entries
and defined ids at the end, response requests are only appended, and the id
allocator never decreases. -/
structure StExtends (s t : St) : Prop where
  parents_eq : t.parents = s.parents
  kind_eq : t.cur.kind = s.cur.kind
  entries_ext : ∃ n, t.cur.entries = s.cur.entries ++ n
  defined_ext : ∃ n, t.cur.defined = s.cur.defined ++ n
  responses_ext : ∃ n, t.responses = s.responses ++ n
  nextId_le : s.nextId ≤ t.nextId

theorem StExtends.rfl (s : St) : StExtends s s :=
  ⟨by simp, by simp, ⟨[], by simp⟩, ⟨[], by simp⟩, ⟨[], by simp⟩, le_refl _⟩

theorem StExtends.trans {s t u : St} (h1 : StExtends s t) (h2 : StExtends t u) :
    StExtends s u := by
  obtain ⟨n1, he1⟩ := h1.entries_ext
  obtain ⟨n2, he2⟩ := h2.entries_ext
  obtain ⟨d1, hd1⟩ := h1.defined_ext
  obtain ⟨d2, hd2⟩ := h2.defined_ext
  obtain ⟨r1, hr1⟩ := h1.responses_ext
  obtain ⟨r2, hr2⟩ := h2.responses_ext
  refine ⟨h2.parents_eq.trans h1.parents_eq, h2.kind_eq.trans h1.kind_eq,
    ⟨n1 ++ n2, ?_⟩, ⟨d1 ++ d2, ?_⟩, ⟨r1 ++ r2, ?_⟩, le_trans h1.nextId_le h2.nextId_le⟩
  · rw [he2, he1, List.append_assoc]
  · rw [hd2, hd1, List.append_assoc]
  · rw [hr2, hr1, List.append_assoc]

theorem extends_appendEntry (e : Entry) (s : St) : StExtends s (appendEntry e s) :=
  ⟨by simp [appendEntry], by simp [appendEntry], ⟨[e], by simp [appendEntry]⟩,
   ⟨[], by simp [appendEntry]⟩, ⟨[], by simp [appendEntry]⟩, by simp [appendEntry]⟩

theorem extends_defineId (i : OperandId) (s : St) : StExtends s (defineId i s) :=
  ⟨by simp [defineId], by simp [defineId], ⟨[], by simp [defineId]⟩,
   ⟨[i], by simp [defineId]⟩, ⟨[], by simp [defineId]⟩, by simp [defineId]⟩

theorem extends_getNextId (s : St) : StExtends s (getNextId s).2 :=
  ⟨by simp [getNextId], by simp [getNextId], ⟨[], by simp [getNextId]⟩,
   ⟨[], by simp [getNextId]⟩, ⟨[], by simp [getNextId]⟩, by simp [getNextId]⟩

theorem extends_insertInstr (op : Nat) (ins : List OperandId) (d : Bool) (s : St) :
    StExtends s (insertInstr op ins d s) := by
  by_cases hd : d
  · simp only [insertInstr, hd, if_true]
    exact ((extends_getNextId s).trans (extends_defineId _ _)).trans (extends_appendEntry _ _)
  · simp only [insertInstr, hd, if_false]
    exact extends_appendEntry _ _

theorem extends_requestResponse (oid : OperandId) (s : St) :
    StExtends s (requestResponse oid s).2 :=
  ⟨by simp [requestResponse], by simp [requestResponse], ⟨[], by simp [requestResponse]⟩,
   ⟨[], by simp [requestResponse]⟩, ⟨[oid], by simp [requestResponse]⟩,
   by simp [requestResponse]⟩

theorem extends_importObj (c : Nat) (s : St) : StExtends s (importObj c s).2 := by
  unfold importObj
  match h : s.activeConn with
  | none =>
      refine ⟨by simp [getNextId, defineId], by simp [getNextId, defineId],
        ⟨[], by simp [getNextId, defineId]⟩, ⟨[s.nextId], by simp [getNextId, defineId]⟩,
        ⟨[], by simp [getNextId, defineId]⟩, by simp [getNextId, defineId]⟩
  | some c0 =>
      by_cases hc : c0 = c
      · simp only [hc, if_true]
        refine ⟨by simp [getNextId, defineId], by simp [getNextId, defineId],
          ⟨[], by simp [getNextId, defineId]⟩, ⟨[s.nextId], by simp [getNextId, defineId]⟩,
          ⟨[], by simp [getNextId, defineId]⟩, by simp [getNextId, defineId]⟩
      · simp only [hc, if_false]
        exact StExtends.rfl s

/-- Closing a child scope restores the scope that was current before it was
pushed: the popped state is the pre-push state with only the accumulated
allocator/response/import changes. -/
theorem popScope_after_push {s t : St} (h : t.parents = s.cur :: s.parents) :
    popScope t = (t.cur, { t with cur := s.cur, parents := s.parents }) := by
  unfold popScope
  rw [h]

/-- Leaving a scope that was entered from `s` yields a state that extends `s`
(current scope restored, ancestors untouched). -/
theorem extends_restore (k : ScopeKind) (s t : St) (h : StExtends (pushScope k s) t) :
    StExtends s { t with cur := s.cur, parents := s.parents } := by
  obtain ⟨r, hr⟩ := h.responses_ext
  refine ⟨by simp, by simp, ⟨[], by simp⟩, ⟨[], by simp⟩, ⟨r, ?_⟩, ?_⟩
  · simpa [pushScope] using hr
  · simpa [pushScope] using h.nextId_le

/-- Closing a child scope and attaching its block entry to the restored
current scope extends the pre-push state. -/
theorem extends_reattach (k : ScopeKind) (e : Entry) (s t : St)
    (h : StExtends (pushScope k s) t) :
    StExtends s (appendEntry e { t with cur := s.cur, parents := s.parents }) :=
  (extends_restore k s t h).trans (extends_appendEntry e _)

mutual

theorem runAct_extends (a : Act) (s : St) : StExtends s (runAct a s).2 := by
  match a with
  | Act.newVal => exact extends_insertInstr 0 [] true s
  | Act.importObj c => exact extends_importObj c s
  | Act.insertI op ins d =>
      simp only [runAct]
      split
      · exact extends_insertInstr op ins d s
      · exact StExtends.rfl s
  | Act.insertOp op ins d =>
      simp only [runAct]
      cases hc : s.activeConn with
      | none => exact StExtends.rfl s
      | some c =>
          simp only []
          split
          · split
            · exact extends_insertInstr op ins d s
            · exact StExtends.rfl s
          · exact StExtends.rfl s
  | Act.reqResponse oid => exact extends_requestResponse oid s
  | Act.ifB c tH =>
      simp only [runAct]
      split
      · have h1 := runActs_extends tH (pushScope ScopeKind.ifTrue s)
        have hp : (runActs tH (pushScope ScopeKind.ifTrue s)).2.parents = s.cur :: s.parents := by
          simpa [pushScope] using h1.parents_eq
        rw [popScope_after_push hp]
        exact extends_reattach ScopeKind.ifTrue _ s _ h1
      · exact StExtends.rfl s
  | Act.ifBE c tH fH =>
      simp only [runAct]
      split
      · have h1 := runActs_extends tH (pushScope ScopeKind.ifTrue s)
        have hp : (runActs tH (pushScope ScopeKind.ifTrue s)).2.parents = s.cur :: s.parents := by
          simpa [pushScope] using h1.parents_eq
        rw [popScope_after_push hp]
        cases (runActs tH (pushScope ScopeKind.ifTrue s)).1 with
        | some e => exact extends_reattach ScopeKind.ifTrue _ s _ h1
        | none =>
            have h2 := runActs_extends fH (pushScope ScopeKind.ifFalse
              { (runActs tH (pushScope ScopeKind.ifTrue s)).2 with cur := s.cur, parents := s.parents })
            have hp2 : (runActs fH (pushScope ScopeKind.ifFalse
                { (runActs tH (pushScope ScopeKind.ifTrue s)).2 with cur := s.cur, parents := s.parents })).2.parents
                = s.cur :: s.parents := by
              simpa [pushScope] using h2.parents_eq
            rw [popScope_after_push hp2]
            exact ((extends_restore ScopeKind.ifTrue s _ h1).trans
              (extends_reattach ScopeKind.ifFalse _ _ _ h2))
      · exact StExtends.rfl s
  | Act.whileB c body =>
      simp only [runAct]
      split
      · have h1 := runActs_extends body (pushScope ScopeKind.whileBody s)
        have hp : (runActs body (pushScope ScopeKind.whileBody s)).2.parents = s.cur :: s.parents := by
          simpa [pushScope] using h1.parents_eq
        rw [popScope_after_push hp]
        exact extends_reattach ScopeKind.whileBody _ s _ h1
      · exact StExtends.rfl s
  | Act.whileBU c body upd =>
      simp only [runAct]
      split
      · have h1 := runActs_extends body (pushScope ScopeKind.whileBody s)
        have hp : (runActs body (pushScope ScopeKind.whileBody s)).2.parents = s.cur :: s.parents := by
          simpa [pushScope] using h1.parents_eq
        rw [popScope_after_push hp]
        cases (runActs body (pushScope ScopeKind.whileBody s)).1 with
        | some e => exact extends_reattach ScopeKind.whileBody _ s _ h1
        | none =>
            have h2 := runActs_extends upd (pushScope ScopeKind.whileUpdate
              { (runActs body (pushScope ScopeKind.whileBody s)).2 with cur := s.cur, parents := s.parents })
            have hp2 : (runActs upd (pushScope ScopeKind.whileUpdate
                { (runActs body (pushScope ScopeKind.whileBody s)).2 with cur := s.cur, parents := s.parents })).2.parents
                = s.cur :: s.parents := by
              simpa [pushScope] using h2.parents_eq
            rw [popScope_after_push hp2]
            exact ((extends_restore ScopeKind.whileBody s _ h1).trans
              (extends_reattach ScopeKind.whileUpdate _ _ _ h2))
      · exact StExtends.rfl s
  | Act.tryB body =>
      simp only [runAct]
      have h1 := runActs_extends body (pushScope ScopeKind.tryBody s)
      have hp : (runActs body (pushScope ScopeKind.tryBody s)).2.parents = s.cur :: s.parents := by
        simpa [pushScope] using h1.parents_eq
      rw [popScope_after_push hp]
      exact extends_reattach ScopeKind.tryBody _ s _ h1
  | Act.tryBE body exc =>
      simp only [runAct]
      have h1 := runActs_extends body (pushScope ScopeKind.tryBody s)
      have hp : (runActs body (pushScope ScopeKind.tryBody s)).2.parents = s.cur :: s.parents := by
        simpa [pushScope] using h1.parents_eq
      rw [popScope_after_push hp]
      cases (runActs body (pushScope ScopeKind.tryBody s)).1 with
      | some e => exact extends_reattach ScopeKind.tryBody _ s _ h1
      | none =>
          have h2 := runActs_extends exc (pushScope ScopeKind.exceptBody
            { (runActs body (pushScope ScopeKind.tryBody s)).2 with cur := s.cur, parents := s.parents })
          have hp2 : (runActs exc (pushScope ScopeKind.exceptBody
              { (runActs body (pushScope ScopeKind.tryBody s)).2 with cur := s.cur, parents := s.parents })).2.parents
              = s.cur :: s.parents := by
            simpa [pushScope] using h2.parents_eq
          rw [popScope_after_push hp2]
          exact ((extends_restore ScopeKind.tryBody s _ h1).trans
            (extends_reattach ScopeKind.exceptBody _ _ _ h2))
  | Act.breakL =>
      simp only [runAct]
      split
      · exact extends_appendEntry Entry.breakE s
      · exact StExtends.rfl s
  | Act.continueL =>
      simp only [runAct]
      split
      · exact extends_appendEntry Entry.continueE s
      · exact StExtends.rfl s
  | Act.getFailCode =>
      simp only [runAct]
      split
      · exact (extends_getNextId s).trans (extends_defineId _ _)
      · exact StExtends.rfl s
  | Act.retStatus v => exact extends_appendEntry (Entry.retE v) s
  | Act.throwUser => exact StExtends.rfl s

theorem runActs_extends (l : List Act) (s : St) : StExtends s (runActs l s).2 := by
  match l with
  | [] => exact StExtends.rfl s
  | a :: rest =>
      simp only [runActs]
      cases (runAct a s).1 with
      | some e => exact runAct_extends a s
      | none => exact (runAct_extends a s).trans (runActs_extends rest (runAct a s).2)

end

theorem issued_eq (k : Nat) (s : St) :
    issued k s = (List.range k).map (fun i : Nat => s.nextId + (i : Int)) := by
  induction k generalizing s with
  | zero => simp [issued]
  | succ n ih =>
      rw [issued, List.range_succ_eq_map]
      simp only [List.map_cons, List.map_map, ih, getNextId, Nat.cast_zero, add_zero,
        List.cons.injEq]
      refine ⟨by simp, List.map_congr_left fun a ha => ?_⟩
      simp only [Function.comp_apply]
      push_cast
      ring

theorem issued_pairwise (k : Nat) (s : St) :
    List.Pairwise (fun i j => i < j) (issued k s) := by
  rw [issued_eq, List.pairwise_map]
  refine (List.pairwise_lt_range k).imp ?_
  intro a b hab
  exact add_lt_add_left (by exact_mod_cast hab) s.nextId

/-- C1: within one AutomationRemoteOperation instance, successive GetNextId
calls return strictly increasing, pairwise distinct OperandIds; the allocator
is monotonic across arbitrary interleaved builder calls and never decreases
(no wrap) during the program's lifetime. -/
theorem getNextId_strictly_increasing (s : St) (acts : List Act) (k : Nat) :
    List.Pairwise (fun i j => i < j) (issued k s) ∧
    (getNextId s).1 < (getNextId (runActs acts (getNextId s).2).2).1 ∧
    s.nextId ≤ (runActs acts s).2.nextId := by
  refine ⟨issued_pairwise k s, ?_, (runActs_extends acts s).nextId_le⟩
  have key := (runActs_extends acts (getNextId s).2).nextId_le
  have h1 : (getNextId s).1 = s.nextId := rfl
  have h2 : (getNextId s).2.nextId = s.nextId + 1 := rfl
  have h3 : (getNextId (runActs acts (getNextId s).2).2).1
      = (runActs acts (getNextId s).2).2.nextId := rfl
  rw [h2] at key
  rw [h1, h3]
  exact lt_of_lt_of_le (lt_add_one s.nextId) key

theorem visibleB_pushScope (k : ScopeKind) (s : St) (i : OperandId) :
    visibleB (pushScope k s) i = visibleB s i := by
  simp [visibleB, pushScope, List.any_cons]

theorem inScopeB_pushScope (k k2 : ScopeKind) (s : St) :
    inScopeB k (pushScope k2 s) = (k2 == k || inScopeB k s) := by
  simp [inScopeB, pushScope, List.any_cons, Bool.or_assoc]

/-- C2: after an IfBlock, WhileBlock, or TryBlock call returns — whether the
caller-supplied handler returned normally or threw (`throwUser` inside the
handler list) — the current scope is the scope that was current before the
call: the stack of open ancestor scopes is unchanged, the current scope keeps
its kind, and its previously built entries are preserved (only extended by
the attached block). -/
theorem scope_restored_on_every_exit (s : St) (c : OperandId)
    (tH fH body upd tb exc : List Act) :
    ((runAct (Act.ifB c tH) s).2.parents = s.parents ∧
      (runAct (Act.ifB c tH) s).2.cur.kind = s.cur.kind ∧
      ∃ n, (runAct (Act.ifB c tH) s).2.cur.entries = s.cur.entries ++ n) ∧
    ((runAct (Act.ifBE c tH fH) s).2.parents = s.parents ∧
      (runAct (Act.ifBE c tH fH) s).2.cur.kind = s.cur.kind ∧
      ∃ n, (runAct (Act.ifBE c tH fH) s).2.cur.entries = s.cur.entries ++ n) ∧
    ((runAct (Act.whileB c body) s).2.parents = s.parents ∧
      (runAct (Act.whileB c body) s).2.cur.kind = s.cur.kind ∧
      ∃ n, (runAct (Act.whileB c body) s).2.cur.entries = s.cur.entries ++ n) ∧
    ((runAct (Act.whileBU c body upd) s).2.parents = s.parents ∧
      (runAct (Act.whileBU c body upd) s).2.cur.kind = s.cur.kind ∧
      ∃ n, (runAct (Act.whileBU c body upd) s).2.cur.entries = s.cur.entries ++ n) ∧
    ((runAct (Act.tryB tb) s).2.parents = s.parents ∧
      (runAct (Act.tryB tb) s).2.cur.kind = s.cur.kind ∧
      ∃ n, (runAct (Act.tryB tb) s).2.cur.entries = s.cur.entries ++ n) ∧
    ((runAct (Act.tryBE tb exc) s).2.parents = s.parents ∧
      (runAct (Act.tryBE tb exc) s).2.cur.kind = s.cur.kind ∧
      ∃ n, (runAct (Act.tryBE tb exc) s).2.cur.entries = s.cur.entries ++ n) :=
  ⟨⟨(runAct_extends (Act.ifB c tH) s).parents_eq,
    (runAct_extends (Act.ifB c tH) s).kind_eq,
    (runAct_extends (Act.ifB c tH) s).entries_ext⟩,
   ⟨(runAct_extends (Act.ifBE c tH fH) s).parents_eq,
    (runAct_extends (Act.ifBE c tH fH) s).kind_eq,
    (runAct_extends (Act.ifBE c tH fH) s).entries_ext⟩,
   ⟨(runAct_extends (Act.whileB c body) s).parents_eq,
    (runAct_extends (Act.whileB c body) s).kind_eq,
    (runAct_extends (Act.whileB c body) s).entries_ext⟩,
   ⟨(runAct_extends (Act.whileBU c body upd) s).parents_eq,
    (runAct_extends (Act.whileBU c body upd) s).kind_eq,
    (runAct_extends (Act.whileBU c body upd) s).entries_ext⟩,
   ⟨(runAct_extends (Act.tryB tb) s).parents_eq,
    (runAct_extends (Act.tryB tb) s).kind_eq,
    (runAct_extends (Act.tryB tb) s).entries_ext⟩,
   ⟨(runAct_extends (Act.tryBE tb exc) s).parents_eq,
    (runAct_extends (Act.tryBE tb exc) s).kind_eq,
    (runAct_extends (Act.tryBE tb exc) s).entries_ext⟩⟩

theorem importObj_conflict (s : St) (c1 c2 : Nat) (h : c1 ≠ c2)
    (hc : s.activeConn = some c1) :
    importObj c2 s = (some BuildError.crossConnectionImport, s) := by
  simp only [importObj, hc]
  rw [if_neg h]

theorem importObj_first (s : St) (c : Nat) (hc : s.activeConn = none) :
    (importObj c s).1 = none ∧ (importObj c s).2.activeConn = some c := by
  simp [importObj, hc, getNextId, defineId]

/-- C3: importing objects from two different provider connections in one
builder fails with CrossConnectionImport at the import call that introduces
the conflict (the second one), at construction time with the builder state
unchanged by the failing call — it is not deferred to remote execution. -/
theorem cross_connection_import (s : St) (c1 c2 : Nat) (h : c1 ≠ c2) :
    (s.activeConn = some c1 →
      runAct (Act.importObj c2) s = (some BuildError.crossConnectionImport, s)) ∧
    (s.activeConn = none →
      (runAct (Act.importObj c1) s).1 = none ∧
      runAct (Act.importObj c2) (runAct (Act.importObj c1) s).2
        = (some BuildError.crossConnectionImport, (runAct (Act.importObj c1) s).2)) := by
  constructor
  · intro hc
    simp only [runAct]
    exact importObj_conflict s c1 c2 h hc
  · intro hc
    simp only [runAct]
    have hf := importObj_first s c1 hc
    exact ⟨hf.1, importObj_conflict _ c1 c2 h hf.2⟩

/-- C4: at every builder state, BreakLoop and ContinueLoop fail with
InvalidControlFlow (state unchanged) whenever no enclosing open scope is a
WhileBody, and GetCurrentFailureCode fails with InvalidControlFlow (state
unchanged) whenever no enclosing open scope is an ExceptBody — each conjunct
conditioned only on its own scope-kind test, so the failure cases inside
foreign scope kinds are covered; and BreakLoop issued inside a nested IfBlock
within a WhileBlock body succeeds, its break entry landing in the loop body
attached to the enclosing WhileBlock. -/
theorem invalid_control_flow (s : St) (c : OperandId) :
    (inScopeB ScopeKind.whileBody s = false →
      runAct Act.breakL s = (some BuildError.invalidControlFlow, s)) ∧
    (inScopeB ScopeKind.whileBody s = false →
      runAct Act.continueL s = (some BuildError.invalidControlFlow, s)) ∧
    (inScopeB ScopeKind.exceptBody s = false →
      runAct Act.getFailCode s = (some BuildError.invalidControlFlow, s)) ∧
    (visibleB s c = true →
      runAct (Act.whileB c [Act.ifB c [Act.breakL]]) s
        = (none, appendEntry (Entry.whileE c [Entry.ifE c [Entry.breakE] none] none) s)) := by
  refine ⟨fun hb => by simp [runAct, hb], fun hb => by simp [runAct, hb],
    fun he => by simp [runAct, he], fun hv => ?_⟩
  have hv2 := hv
  simp [visibleB] at hv2
  simp [runAct, runActs, pushScope, popScope, appendEntry, visibleB, inScopeB, hv2]

/-- C5: at every builder state — with or without an active connection — a
construction-time error raised by a (non-block) builder call fails only that
call and leaves the builder state, in particular all previously built graph
state, unchanged; in particular requesting an unsupported opcode fails with
UnsupportedOpcode and inserts no instruction, and requesting an opcode
insertion with no active connection fails with NoActiveConnection and inserts
no instruction. -/
theorem construction_errors_are_local (a : Act) (s : St) (e : BuildError)
    (op : Nat) (ins : List OperandId) (d : Bool) (c : Nat) :
    (Act.primitive a = true → (runAct a s).1 = some e → (runAct a s).2 = s) ∧
    (s.activeConn = some c → s.supports c op = false →
      runAct (Act.insertOp op ins d) s = (some BuildError.unsupportedOpcode, s)) ∧
    (s.activeConn = none →
      runAct (Act.insertOp op ins d) s = (some BuildError.noActiveConnection, s)) := by
  refine ⟨fun hp herr => ?_, fun hc hop => by simp [runAct, hc, hop],
    fun hc => by simp [runAct, hc]⟩
  cases a with
    | newVal =>
        simp only [runAct] at herr ⊢
        repeat' split at herr
        all_goals simp_all [importObj, getNextId, defineId, insertInstr]
    | importObj c2 =>
        simp only [runAct, importObj] at herr ⊢
        repeat' split at herr
        all_goals simp_all [getNextId, defineId]
    | insertI op2 ins2 d2 =>
        simp only [runAct] at herr ⊢
        repeat' split at herr
        all_goals try simp_all
        all_goals
          rename_i hex
          rw [if_neg]
          · intro hall
            obtain ⟨x, hx, hfx⟩ := hex
            rw [hall x hx] at hfx
            simp at hfx
    | insertOp op2 ins2 d2 =>
        simp only [runAct] at herr ⊢
        repeat' split at herr
        all_goals try simp_all
        all_goals
          rename_i hex
          rw [if_neg]
          · intro hall
            obtain ⟨x, hx, hfx⟩ := hex
            rw [hall x hx] at hfx
            simp at hfx
    | reqResponse oid =>
        simp only [runAct] at herr
        simp at herr
    | breakL =>
        simp only [runAct] at herr ⊢
        repeat' split at herr
        all_goals simp_all
    | continueL =>
        simp only [runAct] at herr ⊢
        repeat' split at herr
        all_goals simp_all
    | getFailCode =>
        simp only [runAct] at herr ⊢
        repeat' split at herr
        all_goals simp_all
    | retStatus v =>
        simp only [runAct] at herr
        simp at herr
    | ifB c2 tH => simp [Act.primitive] at hp
    | ifBE c2 tH fH => simp [Act.primitive] at hp
    | whileB c2 body => simp [Act.primitive] at hp
    | whileBU c2 body upd => simp [Act.primitive] at hp
    | tryB body => simp [Act.primitive] at hp
    | tryBE body exc => simp [Act.primitive] at hp
    | throwUser => simp [Act.primitive] at hp

theorem lin_map_instr (l : List Instruction) :
    lin (l.map Entry.instr) = l.map LinInstr.op := by
  induction l with
  | nil => simp [lin]
  | cons a t ih => simp [lin, linE, ih]

/-- C6: for a finished graph whose root scope holds only plain instructions
(no branch, loop, or try scopes), the linear program handed to the channel at
Execute time is exactly those instructions in insertion order, and Execute
leaves the graph (the whole builder state) unmutated. -/
theorem linearize_straightline (s : St) (ch : Channel) (l : List Instruction)
    (hroot : s.parents = []) (h : s.cur.entries = l.map Entry.instr) :
    linearizedProgram s = l.map LinInstr.op ∧ (execute ch s).2 = s := by
  constructor
  · rw [linearizedProgram, h, lin_map_instr]
  · by_cases h0 : (ch (linearizedProgram s) s.responses).1 = 0 <;> simp [execute, h0]

/-- C7: when the execution channel reports a non-success status, Execute
returns (not throws) a ResultSet carrying exactly that status with all
per-operand values absent — the failure is surfaced through the ResultSet,
never dropped. -/
theorem remote_failure_surfaced (s : St) (ch : Channel)
    (h : (ch (linearizedProgram s) s.responses).1 ≠ 0) :
    execute ch s
      = ({ status := (ch (linearizedProgram s) s.responses).1, values := [] }, s) ∧
    (execute ch s).1.status ≠ 0 ∧ (∀ t, decode (execute ch s).1 t = none) := by
  have he : execute ch s
      = ({ status := (ch (linearizedProgram s) s.responses).1, values := [] }, s) := by
    simp [execute, h]
  refine ⟨he, ?_, ?_⟩
  · rw [he]; exact h
  · intro t; rw [he]; simp [decode]

theorem getD_map_len {α β : Type} (f : α → Option β) (A B : List α) (x : α) :
    ((A ++ x :: B).map f).getD A.length none = f x := by
  rw [List.getD_eq_getElem?_getD, List.getElem?_map]
  rw [List.getElem?_append_right (le_refl A.length)]
  simp

/-- C8: every RequestResponse call returns a token; requesting a response for
the same operand again — with arbitrary builder calls in between — returns a
distinct token, and after Execute both tokens decode to the same value in
the ResultSet. -/
theorem response_tokens_distinct_same_value (s : St) (oid : OperandId)
    (mid : List Act) (ch : Channel) :
    (requestResponse oid s).1
        ≠ (requestResponse oid (runActs mid (requestResponse oid s).2).2).1 ∧
    decode (execute ch
          (requestResponse oid (runActs mid (requestResponse oid s).2).2).2).1
        (requestResponse oid s).1
      = decode (execute ch
          (requestResponse oid (runActs mid (requestResponse oid s).2).2).2).1
        (requestResponse oid (runActs mid (requestResponse oid s).2).2).1 := by
  have h2 : (requestResponse oid s).2.responses = s.responses ++ [oid] := rfl
  obtain ⟨m, hm⟩ := (runActs_extends mid (requestResponse oid s).2).responses_ext
  rw [h2] at hm
  have ht1 : (requestResponse oid s).1 = s.responses.length := rfl
  have ht2 : (requestResponse oid (runActs mid (requestResponse oid s).2).2).1
      = (runActs mid (requestResponse oid s).2).2.responses.length := rfl
  have h3 : (requestResponse oid (runActs mid (requestResponse oid s).2).2).2.responses
      = (runActs mid (requestResponse oid s).2).2.responses ++ [oid] := rfl
  constructor
  · rw [ht1, ht2, hm]
    simp only [List.length_append, List.length_cons, List.length_nil]
    omega
  · by_cases h0 : (ch (linearizedProgram
        (requestResponse oid (runActs mid (requestResponse oid s).2).2).2)
        (requestResponse oid (runActs mid (requestResponse oid s).2).2).2.responses).1 = 0
    · have e1 : (requestResponse oid (runActs mid (requestResponse oid s).2).2).2.responses
          = s.responses ++ oid :: (m ++ [oid]) := by
        rw [h3, hm]
        simp [List.append_assoc]
      have e2 : (requestResponse oid (runActs mid (requestResponse oid s).2).2).2.responses
          = (runActs mid (requestResponse oid s).2).2.responses ++ oid :: [] := h3
      simp only [execute, h0, if_true, decode, ht1, ht2]
      set g := (ch (linearizedProgram
          (requestResponse oid (runActs mid (requestResponse oid s).2).2).2)
          (requestResponse oid (runActs mid (requestResponse oid s).2).2).2.responses).2
      conv_lhs => rw [e1]
      conv_rhs => rw [e2]
      rw [getD_map_len, getD_map_len]
    · simp only [execute, h0, if_false, decode]
      simp [h0]

/-- C9: querying opcode support with no active provider connection fails with
the dedicated NoActiveConnection error (the header documents a thrown E_FAIL)
— it never returns false. -/
theorem no_active_connection_query (s : St) (op : Nat) (h : s.activeConn = none) :
    isOpcodeSupported s op = Except.error BuildError.noActiveConnection ∧
    (∀ b : Bool, isOpcodeSupported s op ≠ Except.ok b) := by
  constructor
  · simp [isOpcodeSupported, h]
  · intro b
    simp [isOpcodeSupported, h]

/-- C10: a fresh AutomationRemoteOperation issues 1 as its first OperandId
(`int m_nextId = 1` in the header), each GetNextId call returns the counter
and increments it by exactly one, so `k` calls issue exactly the consecutive
ids 1, 2, ..., k; and as long as at most 2^31 - 1 ids are requested every
issued id stays within the positive range of the 32-bit signed counter. -/
theorem allocator_consecutive_from_one (f : Nat → Nat → Bool) (k : Nat)
    (hk : (k : Int) ≤ 2 ^ 31 - 1) :
    (getNextId (initSt f)).1 = 1 ∧
    (∀ s : St, getNextId s = (s.nextId, { s with nextId := s.nextId + 1 })) ∧
    issued k (initSt f) = (List.range k).map (fun i : Nat => (i : Int) + 1) ∧
    (∀ i ∈ issued k (initSt f), 1 ≤ i ∧ i ≤ 2 ^ 31 - 1) := by
  refine ⟨rfl, fun s => rfl, ?_, ?_⟩
  · rw [issued_eq]
    refine List.map_congr_left fun a ha => ?_
    show (initSt f).nextId + (a : Int) = (a : Int) + 1
    simp [initSt]
    ring
  · intro i hi
    rw [issued_eq] at hi
    simp only [List.mem_map, List.mem_range] at hi
    obtain ⟨a, ha, rfl⟩ := hi
    have haa : (a : Int) < (k : Int) := by exact_mod_cast ha
    show 1 ≤ (initSt f).nextId + (a : Int) ∧ (initSt f).nextId + (a : Int) ≤ 2 ^ 31 - 1
    have h1 : (initSt f).nextId = 1 := rfl
    rw [h1]
    omega

/-- Witness for C3 at a concrete state: importing connection 0 and then
connection 1 into a fresh builder. -/
theorem cross_connection_import_witness :
    (runAct (Act.importObj 0) (initSt noOps)).1 = none ∧
    runAct (Act.importObj 1) (runAct (Act.importObj 0) (initSt noOps)).2
      = (some BuildError.crossConnectionImport,
          (runAct (Act.importObj 0) (initSt noOps)).2) :=
  (cross_connection_import (initSt noOps) 0 1 (by decide)).2 rfl

/-- Witness for C4: the three failures at a fresh builder (no loop or except
scope open there), and the nested-break success at a concrete state with a
defined operand 1 at root. -/
theorem invalid_control_flow_witness :
    runAct Act.breakL (initSt noOps)
      = (some BuildError.invalidControlFlow, initSt noOps) ∧
    runAct Act.continueL (initSt noOps)
      = (some BuildError.invalidControlFlow, initSt noOps) ∧
    runAct Act.getFailCode (initSt noOps)
      = (some BuildError.invalidControlFlow, initSt noOps) ∧
    runAct (Act.whileB 1 [Act.ifB 1 [Act.breakL]]) exampleSt
      = (none, appendEntry (Entry.whileE 1 [Entry.ifE 1 [Entry.breakE] none] none)
          exampleSt) :=
  ⟨(invalid_control_flow (initSt noOps) 1).1 (by decide),
   (invalid_control_flow (initSt noOps) 1).2.1 (by decide),
   (invalid_control_flow (initSt noOps) 1).2.2.1 (by decide),
   (invalid_control_flow exampleSt 1).2.2.2 (by decide)⟩

/-- Witness for C5: an opcode insertion failing with NoActiveConnection at a
fresh connectionless builder leaves the state unchanged, an unsupported
opcode is rejected with nothing inserted at a connected builder, and the same
connectionless insertion yields exactly the NoActiveConnection error. -/
theorem construction_errors_are_local_witness :
    (runAct (Act.insertOp 5 [] false) (initSt noOps)).2 = initSt noOps ∧
    runAct (Act.insertOp 5 [] false) exampleConnSt
      = (some BuildError.unsupportedOpcode, exampleConnSt) ∧
    runAct (Act.insertOp 5 [] false) (initSt noOps)
      = (some BuildError.noActiveConnection, initSt noOps) :=
  ⟨(construction_errors_are_local (Act.insertOp 5 [] false) (initSt noOps)
      BuildError.noActiveConnection 5 [] false 0).1 rfl (by simp [runAct, initSt]),
   (construction_errors_are_local Act.breakL exampleConnSt
      BuildError.invalidControlFlow 5 [] false 0).2.1 rfl rfl,
   (construction_errors_are_local Act.breakL (initSt noOps)
      BuildError.invalidControlFlow 5 [] false 0).2.2 rfl⟩

/-- Witness for C6 on the empty finished graph and the trivial channel. -/
theorem linearize_straightline_witness :
    linearizedProgram (initSt noOps) = List.map LinInstr.op [] ∧
    (execute okChannel (initSt noOps)).2 = initSt noOps :=
  linearize_straightline (initSt noOps) okChannel [] rfl rfl

/-- Witness for C7 against a channel that always fails with status 3. -/
theorem remote_failure_surfaced_witness :
    execute failChannel (initSt noOps)
      = ({ status := (failChannel (linearizedProgram (initSt noOps))
            (initSt noOps).responses).1, values := [] }, initSt noOps) ∧
    (execute failChannel (initSt noOps)).1.status ≠ 0 ∧
    (∀ t, decode (execute failChannel (initSt noOps)).1 t = none) :=
  remote_failure_surfaced (initSt noOps) failChannel (by decide)

/-- Witness for C9 on a fresh builder with no connection. -/
theorem no_active_connection_query_witness :
    isOpcodeSupported (initSt noOps) 0 = Except.error BuildError.noActiveConnection ∧
    (∀ b : Bool, isOpcodeSupported (initSt noOps) 0 ≠ Except.ok b) :=
  no_active_connection_query (initSt noOps) 0 rfl

/-- Witness for C10 with three allocations from a fresh builder. -/
theorem allocator_consecutive_from_one_witness :
    (getNextId (initSt noOps)).1 = 1 ∧
    (∀ s : St, getNextId s = (s.nextId, { s with nextId := s.nextId + 1 })) ∧
    issued 3 (initSt noOps) = (List.range 3).map (fun i : Nat => (i : Int) + 1) ∧
    (∀ i ∈ issued 3 (initSt noOps), 1 ≤ i ∧ i ≤ 2 ^ 31 - 1) :=
  allocator_consecutive_from_one noOps 3 (by decide)

end UIA
